import Mathlib

/-!
Shallow embedding of the context-matcher service (src/main.py) and proofs
about its normalization, scoring and selection logic.

Modelling conventions:

* Python strings are modelled as `List Char`; `str` turns a Lean string
  literal into this representation.
* Python float arithmetic is modelled by exact rational arithmetic (`ℚ`).
  Every score the program can produce is a sum drawn from the finite set
  {0, 27/100, 45/100} + {0, 21/100, 35/100} + {0, 20/100}; all such sums are
  exact integer multiples of 1/100, every pair of distinct sums differs by at
  least 1/100, and the bucket thresholds 0.85 and 0.5 are at distance at
  least 0.02 from every achievable score, so IEEE-754 double arithmetic on
  these values realizes exactly the same comparisons, equalities and
  rounding results as the rational model.
* `str.replace` of Python replaces the non-overlapping occurrences of a
  pattern left to right; `replaceAll` below implements exactly that by
  structural recursion on a character budget.  Python additionally inserts
  the replacement at every boundary when the pattern is empty; an empty
  pattern never occurs in the shipped synonym table, and `replaceAll`
  returns its argument unchanged in that case.
* Python `round(x, 2)` rounds half to even; `round2` implements that on ℚ.
* `(s or "")` in `normalize` is the identity on every actual string input
  (both fields and dict defaults are strings here), so `normalize` takes the
  string directly.
* The selection loop of `match_detail` reads the module-level constant
  `SAMPLE_DETAILS`; `match_over` is the same loop with the library as an
  argument (the spec, sections 4.2 and 9, treats the library as injected
  state), and `match_detail` is `match_over SAMPLE_DETAILS`.
-/

namespace ContextMatcher

/-- Characters counted as whitespace by Python str.strip (ASCII part). -/
def pyIsSpace (c : Char) : Bool :=
  c == ' ' || c == '\t' || c == '\n' || c == '\r' || c == '\x0b' || c == '\x0c'

/-- ASCII lowercasing of one character, as Python str.lower does on the
ASCII letters occurring in this program. -/
def pyToLower (c : Char) : Char :=
  if 65 ≤ c.toNat ∧ c.toNat ≤ 90 then Char.ofNat (c.toNat + 32) else c

/-- Python str.lower. -/
def toLowerStr (s : List Char) : List Char := s.map pyToLower

/-- Drop trailing whitespace (helper for `pyStrip`). -/
def dropTrailing (s : List Char) : List Char :=
  (s.reverse.dropWhile pyIsSpace).reverse

/-- Python str.strip(): remove leading and trailing whitespace. -/
def pyStrip (s : List Char) : List Char :=
  dropTrailing (s.dropWhile pyIsSpace)

/-- Does the string begin with the given pattern (Python str.startswith)? -/
def startsWith : List Char → List Char → Bool
  | [], _ => true
  | _ :: _, [] => false
  | p :: ps, c :: cs => p == c && startsWith ps cs

/-- Python substring test, the binary operator (pat in s). -/
def containsSub (pat : List Char) : List Char → Bool
  | [] => startsWith pat []
  | c :: rest => startsWith pat (c :: rest) || containsSub pat rest

/-- Worker for `replaceAll`; the fuel argument bounds the number of scanned
positions and makes the recursion structural. -/
def replaceAllAux (pat rep : List Char) : Nat → List Char → List Char
  | 0, s => s
  | _ + 1, [] => []
  | fuel + 1, c :: rest =>
    if startsWith pat (c :: rest) then
      rep ++ replaceAllAux pat rep fuel ((c :: rest).drop pat.length)
    else
      c :: replaceAllAux pat rep fuel rest

/-- Python str.replace for a non-empty pattern: replace the non-overlapping
occurrences of pat, scanning left to right.  (Python inserts rep at every
boundary when pat is empty; the synonym table never contains an empty
pattern, and in that case the string is returned unchanged.) -/
def replaceAll (pat rep s : List Char) : List Char :=
  if pat = [] then s else replaceAllAux pat rep s.length s

/-- The characters of a Lean string literal, used to transcribe the Python
string constants. -/
def str (s : String) : List Char := s.data

/-- main.py, NORMALIZATION_SYNONYMS: ordered substitution table. -/
def NORMALIZATION_SYNONYMS : List (List Char × List Char) :=
  [ (str "exterior", str "external"),
    (str "interior", str "internal"),
    (str "concrete slab", str "slab"),
    (str "masonry", str "cmu"),
    (str "ext wall", str "external wall"),
    (str "int wall", str "internal wall") ]

/-- The synonym loop of `normalize`: for each rule in table order, if the
pattern occurs in the current string, replace all its occurrences. -/
def applySynonyms : List (List Char × List Char) → List Char → List Char
  | [], s => s
  | (old, new) :: rest, s =>
    applySynonyms rest (if containsSub old s then replaceAll old new s else s)

/-- main.py, normalize: strip, lowercase, then apply the synonym table. -/
def normalize (s : List Char) : List Char :=
  applySynonyms NORMALIZATION_SYNONYMS (toLowerStr (pyStrip s))

/-- A record of the in-memory detail library. -/
structure Detail where
  id : List Char
  title : List Char
  host : List Char
  adjacent : List Char
  exposure : List Char
  notes : List Char
deriving DecidableEq

/-- Record D-001 of SAMPLE_DETAILS. -/
def D001 : Detail :=
  { id := str "D-001",
    title := str "External Wall\u2013Slab Junction Waterproofing",
    host := str "external wall",
    adjacent := str "slab",
    exposure := str "external",
    notes := str "Typical waterproofing and junction details for above-grade external wall to slab." }

/-- Record D-002 of SAMPLE_DETAILS. -/
def D002 : Detail :=
  { id := str "D-002",
    title := str "Internal Partition\u2013Slab Recess",
    host := str "internal partition",
    adjacent := str "slab",
    exposure := str "internal",
    notes := str "Interior partition details where a slab recess occurs." }

/-- Record D-003 of SAMPLE_DETAILS. -/
def D003 : Detail :=
  { id := str "D-003",
    title := str "Curtain Wall\u2013CMU Sill Detail",
    host := str "curtain wall",
    adjacent := str "cmu",
    exposure := str "external",
    notes := str "Sill interface with masonry backup (CMU)." }

/-- Record D-004 of SAMPLE_DETAILS. -/
def D004 : Detail :=
  { id := str "D-004",
    title := str "Roof Edge\u2013Parapet Flashing",
    host := str "roof edge",
    adjacent := str "parapet",
    exposure := str "external",
    notes := str "Roof edge termination and flashing detail." }

/-- Record D-005 of SAMPLE_DETAILS. -/
def D005 : Detail :=
  { id := str "D-005",
    title := str "Foundation Wall\u2013Footing Junction",
    host := str "foundation wall",
    adjacent := str "footing",
    exposure := str "external",
    notes := str "Below-grade foundation wall to footing connection detail." }

/-- main.py, SAMPLE_DETAILS: the shipped five-record library. -/
def SAMPLE_DETAILS : List Detail := [D001, D002, D003, D004, D005]

/-- main.py, WEIGHTS["host"]. -/
def W_host : ℚ := 0.45

/-- main.py, WEIGHTS["adjacent"]. -/
def W_adjacent : ℚ := 0.35

/-- main.py, WEIGHTS["exposure"]. -/
def W_exposure : ℚ := 0.20

/-- The normalized query dict passed to score_match
(keys host, adjacent, exposure). -/
structure NormQuery where
  host : List Char
  adjacent : List Char
  exposure : List Char
deriving DecidableEq

/-- The host comparison block of score_match: contribution and reason. -/
def hostScore (q : NormQuery) (d : Detail) : ℚ × List Char :=
  let host_input := q.host
  let host_detail := normalize d.host
  if host_input = host_detail ∧ host_input ≠ [] then
    (W_host * 1, str "Exact match on host")
  else if host_input ≠ [] ∧ host_detail ≠ [] ∧
      (containsSub host_input host_detail || containsSub host_detail host_input) then
    (W_host * 0.6, str "Partial match on host")
  else
    (0, str "Host differs")

/-- The adjacent comparison block of score_match. -/
def adjacentScore (q : NormQuery) (d : Detail) : ℚ × List Char :=
  let adj_input := q.adjacent
  let adj_detail := normalize d.adjacent
  if adj_input = adj_detail ∧ adj_input ≠ [] then
    (W_adjacent * 1, str "Exact match on adjacent element")
  else if adj_input ≠ [] ∧ adj_detail ≠ [] ∧
      (containsSub adj_input adj_detail || containsSub adj_detail adj_input) then
    (W_adjacent * 0.6, str "Partial match on adjacent element")
  else
    (0, str "Adjacent element differs")

/-- The exposure comparison block of score_match (no credit on mismatch). -/
def exposureScore (q : NormQuery) (d : Detail) : ℚ × List Char :=
  let exp_input := q.exposure
  let exp_detail := normalize d.exposure
  if exp_input = exp_detail ∧ exp_input ≠ [] then
    (W_exposure * 1, str "Exact match on exposure")
  else if exp_input ≠ [] ∧ exp_detail ≠ [] then
    (0, str "Exposure differs (input=" ++ exp_input ++ str ", detail=" ++ exp_detail ++ str ")")
  else
    (0, str "Exposure unknown")

/-- main.py, score_match: total of the three contributions clamped into
[0, 1], together with the three reasons in field order. -/
def score_match (q : NormQuery) (d : Detail) : ℚ × List (List Char) :=
  let h := hostScore q d
  let a := adjacentScore q d
  let e := exposureScore q d
  (max 0 (min (h.1 + a.1 + e.1) 1), [h.2, a.2, e.2])

/-- Request body of the /match endpoint. -/
structure MatchInput where
  host_element : List Char
  adjacent_element : List Char
  exposure : List Char
deriving DecidableEq

/-- Response body of the /match endpoint. -/
structure MatchOutput where
  suggested_detail : List Char
  confidence : ℚ
  reason : List Char
deriving DecidableEq

/-- Floor of a rational (floor division of numerator by denominator). -/
def ratFloor (x : ℚ) : ℤ := Int.fdiv x.num x.den

/-- Round a rational to the nearest integer, ties to even, as Python round
does. -/
def roundHalfEven (x : ℚ) : ℤ :=
  let n := ratFloor x
  let f := x - n
  if f < 1 / 2 then n
  else if 1 / 2 < f then n + 1
  else if n % 2 = 0 then n else n + 1

/-- Python round(x, 2). -/
def round2 (x : ℚ) : ℚ := (roundHalfEven (x * 100) : ℚ) / 100

/-- Python "; ".join. -/
def joinSemi (rs : List (List Char)) : List Char := List.intercalate (str "; ") rs

/-- The normalization of the request payload done at the top of
match_detail. -/
def input_norm (payload : MatchInput) : NormQuery :=
  { host := normalize payload.host_element,
    adjacent := normalize payload.adjacent_element,
    exposure := normalize payload.exposure }

/-- The selection loop of match_detail: best record so far, best score so
far (started at -1.0) and its reasons. -/
def bestLoop (q : NormQuery) : List Detail → Option Detail → ℚ → List (List Char) →
    Option Detail × ℚ × List (List Char)
  | [], best, best_score, best_reasons => (best, best_score, best_reasons)
  | d :: rest, best, best_score, best_reasons =>
    let s := (score_match q d).1
    let reasons := (score_match q d).2
    if s > best_score then bestLoop q rest (some d) s reasons
    else bestLoop q rest best best_score best_reasons

/-- main.py, match_detail, with the record library as an argument. -/
def match_over (lib : List Detail) (payload : MatchInput) : MatchOutput :=
  let q := input_norm payload
  let r := bestLoop q lib none (-1) []
  match r.1 with
  | none =>
    { suggested_detail := str "No match found", confidence := 0,
      reason := str "No samples available" }
  | some best =>
    let confidence := round2 r.2.1
    let reason_text :=
      if confidence ≥ 0.85 then str "High confidence: " ++ joinSemi r.2.2
      else if confidence ≥ 0.5 then str "Medium confidence: " ++ joinSemi r.2.2
      else str "Low confidence: " ++ joinSemi r.2.2
    { suggested_detail := best.title, confidence := confidence, reason := reason_text }

/-- main.py, match_detail: the POST /match handler body over the shipped
library. -/
def match_detail (payload : MatchInput) : MatchOutput :=
  match_over SAMPLE_DETAILS payload

/-- Modelled from the spec, section 4.1: apply each synonym rule in table
order, replacing all substring occurrences of its pattern, with no
occurrence guard. -/
def applySynonymsSpec (table : List (List Char × List Char)) (s : List Char) : List Char :=
  table.foldl (fun acc pr => replaceAll pr.1 pr.2 acc) s

/-- Modelled from the spec, section 4.1: trim, then lowercase, then apply
each synonym rule in table order. -/
def normalizeSpec (s : List Char) : List Char :=
  applySynonymsSpec NORMALIZATION_SYNONYMS (toLowerStr (pyStrip s))

/-- Is the first character (when present) not whitespace? -/
def headOK (l : List Char) : Bool :=
  l.head?.all fun c => !pyIsSpace c

/-- Is the last character (when present) not whitespace? -/
def lastOK (l : List Char) : Bool :=
  l.getLast?.all fun c => !pyIsSpace c

example : normalize (str "  Exterior  ") = str "external" := by decide
example : normalize (str "masonry") = str "cmu" := by decide
example : normalize (str "Ext Wall") = str "external wall" := by decide

/-! ### Basic facts about the scorer -/

theorem score_match_fst (q : NormQuery) (d : Detail) :
    (score_match q d).1 =
      max 0 (min ((hostScore q d).1 + (adjacentScore q d).1 + (exposureScore q d).1) 1) := rfl

theorem score_match_snd (q : NormQuery) (d : Detail) :
    (score_match q d).2 = [(hostScore q d).2, (adjacentScore q d).2, (exposureScore q d).2] := rfl

theorem score_nonneg (q : NormQuery) (d : Detail) : 0 ≤ (score_match q d).1 :=
  le_max_left _ _

theorem score_le_one (q : NormQuery) (d : Detail) : (score_match q d).1 ≤ 1 :=
  max_le (by norm_num) (min_le_right _ _)

theorem hostScore_fst_cases (q : NormQuery) (d : Detail) :
    (hostScore q d).1 = 0 ∨ (hostScore q d).1 = 27 / 100 ∨ (hostScore q d).1 = 45 / 100 := by
  simp only [hostScore]
  split_ifs <;> norm_num [W_host]

theorem adjacentScore_fst_cases (q : NormQuery) (d : Detail) :
    (adjacentScore q d).1 = 0 ∨ (adjacentScore q d).1 = 21 / 100 ∨
      (adjacentScore q d).1 = 35 / 100 := by
  simp only [adjacentScore]
  split_ifs <;> norm_num [W_adjacent]

theorem exposureScore_fst_cases (q : NormQuery) (d : Detail) :
    (exposureScore q d).1 = 0 ∨ (exposureScore q d).1 = 20 / 100 := by
  simp only [exposureScore]
  split_ifs <;> norm_num [W_exposure]

/-- Rounding to two decimals fixes every score the program can produce. -/
theorem round2_score (q : NormQuery) (d : Detail) :
    round2 (score_match q d).1 = (score_match q d).1 := by
  rcases hostScore_fst_cases q d with h1 | h1 | h1 <;>
    rcases adjacentScore_fst_cases q d with h2 | h2 | h2 <;>
    rcases exposureScore_fst_cases q d with h3 | h3 <;>
    rw [score_match_fst, h1, h2, h3] <;>
    norm_num [round2, roundHalfEven, ratFloor, min_def, max_def, Int.fdiv_one]

/-! ### The selection loop keeps the first record attaining the maximum -/

theorem bestLoop_spec (q : NormQuery) (lib : List Detail) :
    ∀ (b0 : Option Detail) (bs0 : ℚ) (br0 : List (List Char)),
      ((∀ d ∈ lib, (score_match q d).1 ≤ bs0) ∧ bestLoop q lib b0 bs0 br0 = (b0, bs0, br0)) ∨
      (∃ (i : ℕ) (hi : i < lib.length),
        bestLoop q lib b0 bs0 br0 =
          (some (lib.get ⟨i, hi⟩), (score_match q (lib.get ⟨i, hi⟩)).1,
            (score_match q (lib.get ⟨i, hi⟩)).2) ∧
        bs0 < (score_match q (lib.get ⟨i, hi⟩)).1 ∧
        (∀ (j : ℕ) (hj : j < lib.length),
          (score_match q (lib.get ⟨j, hj⟩)).1 ≤ (score_match q (lib.get ⟨i, hi⟩)).1) ∧
        (∀ (j : ℕ) (hj : j < lib.length), j < i →
          (score_match q (lib.get ⟨j, hj⟩)).1 < (score_match q (lib.get ⟨i, hi⟩)).1)) := by
  induction lib with
  | nil =>
    intro b0 bs0 br0
    exact Or.inl ⟨fun d hd => absurd hd (List.not_mem_nil d), rfl⟩
  | cons d rest ih =>
    intro b0 bs0 br0
    by_cases hc : (score_match q d).1 > bs0
    · rcases ih (some d) (score_match q d).1 (score_match q d).2 with
        ⟨hall, heq⟩ | ⟨i, hi, heq, hgt, hmax, hfirst⟩
      · refine Or.inr ⟨0, Nat.succ_pos _, ?_, hc, ?_, ?_⟩
        · simpa [bestLoop, hc] using heq
        · intro j hj
          cases j with
          | zero => exact le_refl _
          | succ j =>
            rw [List.get_cons_succ]
            exact hall _ (List.get_mem _ _ _)
        · intro j hj hji
          exact absurd hji (Nat.not_lt_zero j)
      · refine Or.inr ⟨i + 1, Nat.succ_lt_succ hi, ?_, lt_trans hc hgt, ?_, ?_⟩
        · simpa [bestLoop, hc] using heq
        · intro j hj
          cases j with
          | zero => exact le_of_lt hgt
          | succ j => exact hmax j (Nat.lt_of_succ_lt_succ hj)
        · intro j hj hji
          cases j with
          | zero => exact hgt
          | succ j =>
            exact hfirst j (Nat.lt_of_succ_lt_succ hj) (Nat.lt_of_succ_lt_succ hji)
    · have hc' : (score_match q d).1 ≤ bs0 := not_lt.mp hc
      rcases ih b0 bs0 br0 with ⟨hall, heq⟩ | ⟨i, hi, heq, hgt, hmax, hfirst⟩
      · refine Or.inl ⟨?_, by simpa [bestLoop, hc] using heq⟩
        intro d' hd'
        rcases List.mem_cons.mp hd' with rfl | h
        · exact hc'
        · exact hall _ h
      · refine Or.inr ⟨i + 1, Nat.succ_lt_succ hi, ?_, hgt, ?_, ?_⟩
        · simpa [bestLoop, hc] using heq
        · intro j hj
          cases j with
          | zero => exact le_trans hc' (le_of_lt hgt)
          | succ j => exact hmax j (Nat.lt_of_succ_lt_succ hj)
        · intro j hj hji
          cases j with
          | zero => exact lt_of_le_of_lt hc' hgt
          | succ j =>
            exact hfirst j (Nat.lt_of_succ_lt_succ hj) (Nat.lt_of_succ_lt_succ hji)

/-! ### Evaluation helpers -/

theorem round2_one : round2 1 = 1 := by
  norm_num [round2, roundHalfEven, ratFloor, Rat.num_ofNat, Rat.den_ofNat, Int.fdiv_one]

theorem round2_zero : round2 0 = 0 := by
  norm_num [round2, roundHalfEven, ratFloor, Rat.num_ofNat, Rat.den_ofNat, Int.fdiv_one]

theorem round2_fifth : round2 (1 / 5) = 1 / 5 := by
  norm_num [round2, roundHalfEven, ratFloor, Rat.num_ofNat, Rat.den_ofNat, Int.fdiv_one]

theorem match_over_eval (lib : List Detail) (p : MatchInput) {d : Detail} {s : ℚ}
    {rs : List (List Char)}
    (h : bestLoop (input_norm p) lib none (-1) [] = (some d, s, rs)) :
    match_over lib p =
      { suggested_detail := d.title, confidence := round2 s,
        reason :=
          if round2 s ≥ 0.85 then str "High confidence: " ++ joinSemi rs
          else if round2 s ≥ 0.5 then str "Medium confidence: " ++ joinSemi rs
          else str "Low confidence: " ++ joinSemi rs } := by
  simp only [match_over]
  rw [h]

theorem match_over_none (lib : List Detail) (p : MatchInput) {s : ℚ} {rs : List (List Char)}
    (h : bestLoop (input_norm p) lib none (-1) [] = (none, s, rs)) :
    match_over lib p =
      { suggested_detail := str "No match found", confidence := 0,
        reason := str "No samples available" } := by
  simp only [match_over]
  rw [h]

/-! ### Normalization: the occurrence guard is redundant -/

theorem replaceAllAux_no_occurrence (pat rep : List Char) :
    ∀ (fuel : Nat) (s : List Char), containsSub pat s = false →
      replaceAllAux pat rep fuel s = s := by
  intro fuel
  induction fuel with
  | zero => intro s _; rfl
  | succ f ih =>
    intro s h
    cases s with
    | nil => rfl
    | cons c rest =>
      rw [containsSub] at h
      rcases Bool.or_eq_false_iff.mp h with ⟨h1, h2⟩
      rw [replaceAllAux, if_neg (by simp [h1]), ih rest h2]

theorem replaceAll_no_occurrence (pat rep s : List Char) (h : containsSub pat s = false) :
    replaceAll pat rep s = s := by
  unfold replaceAll
  split_ifs with hp
  · rfl
  · exact replaceAllAux_no_occurrence pat rep s.length s h

theorem applySynonyms_eq_spec :
    ∀ (table : List (List Char × List Char)) (s : List Char),
      applySynonyms table s = applySynonymsSpec table s := by
  intro table
  induction table with
  | nil => intro s; rfl
  | cons pr rest ih =>
    intro s
    rcases pr with ⟨old, new⟩
    rw [applySynonyms]
    by_cases h : containsSub old s = true
    · rw [if_pos h, ih]
      rfl
    · rw [if_neg h, ih]
      simp only [applySynonymsSpec, List.foldl_cons]
      rw [replaceAll_no_occurrence old new s (by simpa using h)]

/-- When no synonym pattern occurs in a string, the synonym pass leaves it
unchanged. -/
theorem applySynonyms_no_op :
    ∀ (table : List (List Char × List Char)) (s : List Char),
      (∀ pr ∈ table, containsSub pr.1 s = false) → applySynonyms table s = s := by
  intro table
  induction table with
  | nil => intro s _; rfl
  | cons pr rest ih =>
    intro s h
    rcases pr with ⟨old, new⟩
    rw [applySynonyms, if_neg (by simp [h (old, new) (List.mem_cons_self _ _)] )]
    exact ih s (fun pr hpr => h pr (List.mem_cons_of_mem _ hpr))

/-! ### Normalization: character-level facts -/

theorem char_toNat_ofNat {n : Nat} (h : n < 55296) : (Char.ofNat n).toNat = n := by
  have hv : n.isValidChar := Or.inl h
  simp only [Char.ofNat, hv, dif_pos, Char.ofNatAux, Char.toNat]
  rfl

theorem pyToLower_toNat_upper {c : Char} (h : 65 ≤ c.toNat ∧ c.toNat ≤ 90) :
    (pyToLower c).toNat = c.toNat + 32 := by
  rw [pyToLower, if_pos h]
  exact char_toNat_ofNat (by omega)

theorem pyToLower_eq_self {c : Char} (h : ¬(65 ≤ c.toNat ∧ c.toNat ≤ 90)) :
    pyToLower c = c := by
  rw [pyToLower, if_neg h]

theorem pyToLower_idem (c : Char) : pyToLower (pyToLower c) = pyToLower c := by
  by_cases h : 65 ≤ c.toNat ∧ c.toNat ≤ 90
  · have ht := pyToLower_toNat_upper h
    have hno : ¬(65 ≤ (pyToLower c).toNat ∧ (pyToLower c).toNat ≤ 90) := by
      rw [ht]; omega
    exact pyToLower_eq_self hno
  · rw [pyToLower_eq_self h]
    exact pyToLower_eq_self h

theorem toLowerStr_idem (l : List Char) : toLowerStr (toLowerStr l) = toLowerStr l := by
  simp only [toLowerStr, List.map_map]
  exact List.map_congr_left fun a _ => pyToLower_idem a

theorem pyIsSpace_toNat {c : Char} (h : pyIsSpace c = true) :
    c.toNat = 32 ∨ c.toNat = 9 ∨ c.toNat = 10 ∨ c.toNat = 13 ∨ c.toNat = 11 ∨
      c.toNat = 12 := by
  simp only [pyIsSpace, Bool.or_eq_true, beq_iff_eq] at h
  rcases h with ((((h | h) | h) | h) | h) | h <;> subst h <;> decide

theorem pyIsSpace_pyToLower (c : Char) : pyIsSpace (pyToLower c) = pyIsSpace c := by
  by_cases h : 65 ≤ c.toNat ∧ c.toNat ≤ 90
  · have ht := pyToLower_toNat_upper h
    cases h1 : pyIsSpace (pyToLower c) with
    | true =>
      have := pyIsSpace_toNat h1
      rw [ht] at this
      omega
    | false =>
      cases h2 : pyIsSpace c with
      | true =>
        have := pyIsSpace_toNat h2
        omega
      | false => rfl
  · rw [pyToLower_eq_self h]

/-! ### Normalization: edge and case invariants -/

theorem headOK_reverse (l : List Char) : headOK l.reverse = lastOK l := by
  simp [lastOK, headOK, List.head?_reverse]

theorem lastOK_reverse (l : List Char) : lastOK l.reverse = headOK l := by
  simp [lastOK, headOK, List.getLast?_reverse]

theorem headOK_dropWhile (l : List Char) : headOK (l.dropWhile pyIsSpace) = true := by
  induction l with
  | nil => rfl
  | cons c rest ih =>
    rw [List.dropWhile_cons]
    split_ifs with h
    · exact ih
    · simp [headOK, List.head?_cons, h]

theorem headOK_dropTrailing {l : List Char} (h : headOK l = true) :
    headOK (dropTrailing l) = true := by
  have hsuf : List.dropWhile pyIsSpace l.reverse <:+ l.reverse :=
    List.dropWhile_suffix pyIsSpace
  rcases hsuf with ⟨t, ht⟩
  have heq : dropTrailing l ++ t.reverse = l := by
    have h2 := congrArg List.reverse ht
    rw [List.reverse_append, List.reverse_reverse] at h2
    exact h2
  cases hd : dropTrailing l with
  | nil => rfl
  | cons c cs =>
    have hl : l = c :: (cs ++ t.reverse) := by
      rw [← heq, hd]
      rfl
    rw [hl] at h
    simpa [headOK, List.head?_cons] using h

theorem headOK_pyStrip (s : List Char) : headOK (pyStrip s) = true := by
  rw [pyStrip]
  exact headOK_dropTrailing (headOK_dropWhile s)

theorem lastOK_pyStrip (s : List Char) : lastOK (pyStrip s) = true := by
  rw [pyStrip, dropTrailing, lastOK_reverse]
  exact headOK_dropWhile _

theorem headOK_toLowerStr {l : List Char} (h : headOK l = true) :
    headOK (toLowerStr l) = true := by
  cases l with
  | nil => rfl
  | cons c rest =>
    simp only [headOK, toLowerStr, List.map_cons, List.head?_cons, Option.all_some] at h ⊢
    rw [pyIsSpace_pyToLower]
    exact h

theorem lastOK_toLowerStr {l : List Char} (h : lastOK l = true) :
    lastOK (toLowerStr l) = true := by
  rw [← headOK_reverse] at h ⊢
  rw [show (toLowerStr l).reverse = toLowerStr l.reverse from by
    simp [toLowerStr, List.map_reverse]]
  exact headOK_toLowerStr h

theorem dropWhile_eq_self_of_headOK {l : List Char} (h : headOK l = true) :
    l.dropWhile pyIsSpace = l := by
  cases l with
  | nil => rfl
  | cons c rest =>
    simp only [headOK, List.head?_cons, Option.all_some, Bool.not_eq_true'] at h
    rw [List.dropWhile_cons, if_neg (by simp [h])]

theorem pyStrip_eq_self {t : List Char} (hh : headOK t = true) (hl : lastOK t = true) :
    pyStrip t = t := by
  rw [pyStrip, dropWhile_eq_self_of_headOK hh, dropTrailing,
    dropWhile_eq_self_of_headOK (by rw [headOK_reverse]; exact hl), List.reverse_reverse]

/-! ### Normalization: the synonym pass preserves the invariants -/

theorem replaceAllAux_nil_input (pat rep : List Char) (fuel : Nat) :
    replaceAllAux pat rep fuel [] = [] := by
  cases fuel <;> rfl

theorem replaceAllAux_ne_nil (pat rep : List Char) (hrep : rep ≠ []) :
    ∀ (fuel : Nat) (s : List Char), s ≠ [] → replaceAllAux pat rep fuel s ≠ [] := by
  intro fuel s hs
  cases fuel with
  | zero => exact hs
  | succ f =>
    cases s with
    | nil => exact absurd rfl hs
    | cons c rest =>
      rw [replaceAllAux]
      split_ifs
      · exact List.append_ne_nil_of_left_ne_nil hrep _
      · simp

theorem replaceAllAux_lower (pat rep : List Char) (hrep : toLowerStr rep = rep) :
    ∀ (fuel : Nat) (s : List Char), toLowerStr s = s →
      toLowerStr (replaceAllAux pat rep fuel s) = replaceAllAux pat rep fuel s := by
  intro fuel
  induction fuel with
  | zero => intro s hs; exact hs
  | succ f ih =>
    intro s hs
    cases s with
    | nil => rfl
    | cons c rest =>
      have hs' := hs
      simp only [toLowerStr, List.map_cons] at hs'
      injection hs' with hc1 hc2
      rw [replaceAllAux]
      split_ifs with hm
      · have hdrop : toLowerStr ((c :: rest).drop pat.length) = (c :: rest).drop pat.length := by
          simp only [toLowerStr]
          rw [List.map_drop]
          rw [show List.map pyToLower (c :: rest) = c :: rest from hs]
        have h2 := ih _ hdrop
        simp only [toLowerStr, List.map_append] at hrep h2 ⊢
        rw [hrep, h2]
      · have h2 := ih rest hc2
        simp only [toLowerStr, List.map_cons] at h2 ⊢
        rw [hc1, h2]

theorem replaceAllAux_headOK (pat rep : List Char) (hrep : rep ≠ [])
    (hrh : headOK rep = true) :
    ∀ (fuel : Nat) (s : List Char), headOK s = true →
      headOK (replaceAllAux pat rep fuel s) = true := by
  intro fuel s hs
  cases fuel with
  | zero => exact hs
  | succ f =>
    cases s with
    | nil => exact hs
    | cons c rest =>
      rw [replaceAllAux]
      split_ifs with hm
      · cases rep with
        | nil => exact absurd rfl hrep
        | cons r rs => simpa [headOK, List.head?_cons] using hrh
      · simpa [headOK, List.head?_cons] using hs

theorem lastOK_drop {l : List Char} (n : Nat) (h : lastOK l = true) :
    lastOK (l.drop n) = true := by
  cases hl : (l.drop n).getLast? with
  | none => simp [lastOK, hl]
  | some c =>
    have hne : l.drop n ≠ [] := by
      intro he
      rw [he] at hl
      simp at hl
    rcases List.drop_suffix n l with ⟨t, ht⟩
    have hlc : l.getLast? = some c := by
      rw [← ht, List.getLast?_append_of_ne_nil _ hne, hl]
    simp only [lastOK, hlc, Option.all_some] at h
    simp [lastOK, hl, h]

theorem getLast?_cons_ne_nil (c : Char) {t : List Char} (h : t ≠ []) :
    (c :: t).getLast? = t.getLast? := by
  have := List.getLast?_append_of_ne_nil [c] h
  simpa using this

theorem replaceAllAux_lastOK (pat rep : List Char) (hrep : rep ≠ [])
    (hrl : lastOK rep = true) :
    ∀ (fuel : Nat) (s : List Char), lastOK s = true →
      lastOK (replaceAllAux pat rep fuel s) = true := by
  intro fuel
  induction fuel with
  | zero => intro s hs; exact hs
  | succ f ih =>
    intro s hs
    cases s with
    | nil => exact hs
    | cons c rest =>
      rw [replaceAllAux]
      split_ifs with hm
      · have hd : lastOK ((c :: rest).drop pat.length) = true := lastOK_drop _ hs
        have hX := ih _ hd
        by_cases hXe : replaceAllAux pat rep f ((c :: rest).drop pat.length) = []
        · rw [hXe, List.append_nil]
          exact hrl
        · have hrw : lastOK (rep ++ replaceAllAux pat rep f ((c :: rest).drop pat.length)) =
              lastOK (replaceAllAux pat rep f ((c :: rest).drop pat.length)) := by
            unfold lastOK
            rw [List.getLast?_append_of_ne_nil _ hXe]
          rw [hrw]
          exact hX
      · by_cases hre : rest = []
        · subst hre
          rw [replaceAllAux_nil_input]
          exact hs
        · have hrest : lastOK rest = true := by
            unfold lastOK at hs ⊢
            rw [getLast?_cons_ne_nil c hre] at hs
            exact hs
          have hne := replaceAllAux_ne_nil pat rep hrep f rest hre
          have hX := ih rest hrest
          unfold lastOK at hX ⊢
          rw [getLast?_cons_ne_nil c hne]
          exact hX

theorem applySynonyms_canon :
    ∀ (table : List (List Char × List Char)) (s : List Char),
      (∀ pr ∈ table, pr.2 ≠ [] ∧ toLowerStr pr.2 = pr.2 ∧ headOK pr.2 = true ∧
        lastOK pr.2 = true) →
      toLowerStr s = s → headOK s = true → lastOK s = true →
      toLowerStr (applySynonyms table s) = applySynonyms table s ∧
        headOK (applySynonyms table s) = true ∧ lastOK (applySynonyms table s) = true := by
  intro table
  induction table with
  | nil => intro s _ h1 h2 h3; exact ⟨h1, h2, h3⟩
  | cons pr rest ih =>
    intro s hT h1 h2 h3
    rcases pr with ⟨old, new⟩
    rcases hT (old, new) (List.mem_cons_self _ _) with ⟨hn, hln, hhn, hlan⟩
    rw [applySynonyms]
    have hstep : toLowerStr (if containsSub old s then replaceAll old new s else s) =
        (if containsSub old s then replaceAll old new s else s) ∧
        headOK (if containsSub old s then replaceAll old new s else s) = true ∧
        lastOK (if containsSub old s then replaceAll old new s else s) = true := by
      split_ifs with hc
      · rw [replaceAll]
        split_ifs with hp
        · exact ⟨h1, h2, h3⟩
        · exact ⟨replaceAllAux_lower old new hln _ s h1,
            replaceAllAux_headOK old new hn hhn _ s h2,
            replaceAllAux_lastOK old new hn hlan _ s h3⟩
      · exact ⟨h1, h2, h3⟩
    exact ih _ (fun pr hpr => hT pr (List.mem_cons_of_mem _ hpr)) hstep.1 hstep.2.1 hstep.2.2

/-- The output of normalize is already stripped and lowercased: the trim
and lowercase stages of a second normalize pass are the identity on it. -/
theorem normalize_canon (s : List Char) :
    toLowerStr (normalize s) = normalize s ∧ headOK (normalize s) = true ∧
      lastOK (normalize s) = true := by
  rw [normalize]
  exact applySynonyms_canon NORMALIZATION_SYNONYMS _ (by decide)
    (toLowerStr_idem _) (headOK_toLowerStr (headOK_pyStrip s))
    (lastOK_toLowerStr (lastOK_pyStrip s))

/-! ### Claim theorems -/

/-- C1: a query whose three normalized fields are non-empty and equal the
record's normalized host, adjacent and exposure values gets score 1.0 from
score_match; match on such a query over the shipped library returns
confidence 1.0 with a reason prefixed "High confidence: "; and the literal
query (host="external wall", adjacent="slab", exposure="external") selects
D-001 with confidence 1.0 and the exact reason string. -/
theorem C1_exact_match :
    (∀ (d : Detail) (q : NormQuery),
      q.host = normalize d.host → q.adjacent = normalize d.adjacent →
      q.exposure = normalize d.exposure →
      q.host ≠ [] → q.adjacent ≠ [] → q.exposure ≠ [] →
      (score_match q d).1 = 1) ∧
    (∀ d ∈ SAMPLE_DETAILS, ∀ p : MatchInput,
      (input_norm p).host = normalize d.host →
      (input_norm p).adjacent = normalize d.adjacent →
      (input_norm p).exposure = normalize d.exposure →
      (input_norm p).host ≠ [] → (input_norm p).adjacent ≠ [] →
      (input_norm p).exposure ≠ [] →
      (match_detail p).confidence = 1 ∧
        ∃ t, (match_detail p).reason = str "High confidence: " ++ t) ∧
    match_detail ⟨str "external wall", str "slab", str "external"⟩ =
      { suggested_detail := str "External Wall–Slab Junction Waterproofing",
        confidence := 1,
        reason := str "High confidence: Exact match on host; Exact match on adjacent element; Exact match on exposure" } := by
  have parta : ∀ (d : Detail) (q : NormQuery),
      q.host = normalize d.host → q.adjacent = normalize d.adjacent →
      q.exposure = normalize d.exposure →
      q.host ≠ [] → q.adjacent ≠ [] → q.exposure ≠ [] →
      (score_match q d).1 = 1 := by
    intro d q h1 h2 h3 n1 n2 n3
    have hh : (hostScore q d).1 = W_host * 1 := by
      simp only [hostScore]
      rw [if_pos ⟨h1, n1⟩]
    have ha : (adjacentScore q d).1 = W_adjacent * 1 := by
      simp only [adjacentScore]
      rw [if_pos ⟨h2, n2⟩]
    have he : (exposureScore q d).1 = W_exposure * 1 := by
      simp only [exposureScore]
      rw [if_pos ⟨h3, n3⟩]
    rw [score_match_fst, hh, ha, he]
    norm_num [W_host, W_adjacent, W_exposure]
  refine ⟨parta, ?_, ?_⟩
  · intro d hd p h1 h2 h3 n1 n2 n3
    have hs : (score_match (input_norm p) d).1 = 1 := parta d (input_norm p) h1 h2 h3 n1 n2 n3
    rcases bestLoop_spec (input_norm p) SAMPLE_DETAILS none (-1) [] with
      ⟨hall, _⟩ | ⟨i, hi, heq, _, hmax, _⟩
    · have hcontra := hall d hd
      rw [hs] at hcontra
      norm_num at hcontra
    · rcases List.mem_iff_get.mp hd with ⟨⟨k, hk⟩, hget⟩
      have hge := hmax k hk
      rw [hget, hs] at hge
      have hsi : (score_match (input_norm p) (SAMPLE_DETAILS.get ⟨i, hi⟩)).1 = 1 :=
        le_antisymm (score_le_one _ _) hge
      rw [hsi] at heq
      have hout := match_over_eval SAMPLE_DETAILS p heq
      rw [show match_detail p = match_over SAMPLE_DETAILS p from rfl, hout]
      rw [round2_one]
      refine ⟨rfl, ?_⟩
      rw [if_pos (by norm_num : (1 : ℚ) ≥ 0.85)]
      exact ⟨_, rfl⟩
  · have s1 : score_match ⟨str "external wall", str "slab", str "external"⟩ D001 =
        (max 0 (min (W_host * 1 + W_adjacent * 1 + W_exposure * 1) 1),
          [str "Exact match on host", str "Exact match on adjacent element",
            str "Exact match on exposure"]) := rfl
    have s2 : score_match ⟨str "external wall", str "slab", str "external"⟩ D002 =
        (max 0 (min (0 + W_adjacent * 1 + 0) 1),
          [str "Host differs", str "Exact match on adjacent element",
            str "Exposure differs (input=external, detail=internal)"]) := rfl
    have s3 : score_match ⟨str "external wall", str "slab", str "external"⟩ D003 =
        (max 0 (min (0 + 0 + W_exposure * 1) 1),
          [str "Host differs", str "Adjacent element differs",
            str "Exact match on exposure"]) := rfl
    have s4 : score_match ⟨str "external wall", str "slab", str "external"⟩ D004 =
        (max 0 (min (0 + 0 + W_exposure * 1) 1),
          [str "Host differs", str "Adjacent element differs",
            str "Exact match on exposure"]) := rfl
    have s5 : score_match ⟨str "external wall", str "slab", str "external"⟩ D005 =
        (max 0 (min (0 + 0 + W_exposure * 1) 1),
          [str "Host differs", str "Adjacent element differs",
            str "Exact match on exposure"]) := rfl
    have hq : input_norm ⟨str "external wall", str "slab", str "external"⟩ =
        ⟨str "external wall", str "slab", str "external"⟩ := by decide
    have hloop : bestLoop
        (input_norm ⟨str "external wall", str "slab", str "external"⟩)
        SAMPLE_DETAILS none (-1) [] =
        (some D001, 1,
          [str "Exact match on host", str "Exact match on adjacent element",
            str "Exact match on exposure"]) := by
      rw [hq]
      norm_num [SAMPLE_DETAILS, bestLoop, s1, s2, s3, s4, s5, W_host, W_adjacent, W_exposure,
        min_def, max_def]
    have hout := match_over_eval SAMPLE_DETAILS _ hloop
    rw [show match_detail ⟨str "external wall", str "slab", str "external"⟩ =
        match_over SAMPLE_DETAILS ⟨str "external wall", str "slab", str "external"⟩ from rfl,
      hout, round2_one]
    rw [if_pos (by norm_num : (1 : ℚ) ≥ 0.85)]
    refine congrArg _ ?_
    decide

/-- C1 witness: the exact-match hypotheses hold for D-001 and the literal
normalized query, and the theorem then gives score 1.0. -/
theorem C1_exact_match_witness :
    (score_match ⟨str "external wall", str "slab", str "external"⟩ D001).1 = 1 :=
  C1_exact_match.1 D001 ⟨str "external wall", str "slab", str "external"⟩
    (by decide) (by decide) (by decide) (by decide) (by decide) (by decide)

/-- C2 counterexample: for the query (host="masonry", adjacent="sill",
exposure="external"), record D-003 does NOT achieve the strictly highest
score (D-001 ties with it: the normalized host "cmu" is compared against
D-003's host "curtain wall", not against its adjacent field "cmu"), and
match returns D-001, not D-003. -/
theorem C2_masonry_counterexample :
    (score_match (input_norm ⟨str "masonry", str "sill", str "external"⟩) D001).1 =
      (score_match (input_norm ⟨str "masonry", str "sill", str "external"⟩) D003).1 ∧
    (match_detail ⟨str "masonry", str "sill", str "external"⟩).suggested_detail =
      str "External Wall–Slab Junction Waterproofing" ∧
    (match_detail ⟨str "masonry", str "sill", str "external"⟩).suggested_detail ≠
      D003.title := by
  have hq : input_norm ⟨str "masonry", str "sill", str "external"⟩ =
      ⟨str "cmu", str "sill", str "external"⟩ := by decide
  have s1 : score_match (⟨str "cmu", str "sill", str "external"⟩ : NormQuery) D001 =
      (max 0 (min (0 + 0 + W_exposure * 1) 1),
        [str "Host differs", str "Adjacent element differs",
          str "Exact match on exposure"]) := rfl
  have s2 : score_match (⟨str "cmu", str "sill", str "external"⟩ : NormQuery) D002 =
      (max 0 (min (0 + 0 + 0) 1),
        [str "Host differs", str "Adjacent element differs",
          str "Exposure differs (input=external, detail=internal)"]) := rfl
  have s3 : score_match (⟨str "cmu", str "sill", str "external"⟩ : NormQuery) D003 =
      (max 0 (min (0 + 0 + W_exposure * 1) 1),
        [str "Host differs", str "Adjacent element differs",
          str "Exact match on exposure"]) := rfl
  have s4 : score_match (⟨str "cmu", str "sill", str "external"⟩ : NormQuery) D004 =
      (max 0 (min (0 + 0 + W_exposure * 1) 1),
        [str "Host differs", str "Adjacent element differs",
          str "Exact match on exposure"]) := rfl
  have s5 : score_match (⟨str "cmu", str "sill", str "external"⟩ : NormQuery) D005 =
      (max 0 (min (0 + 0 + W_exposure * 1) 1),
        [str "Host differs", str "Adjacent element differs",
          str "Exact match on exposure"]) := rfl
  have hloop : bestLoop (input_norm ⟨str "masonry", str "sill", str "external"⟩)
      SAMPLE_DETAILS none (-1) [] =
      (some D001, 1 / 5,
        [str "Host differs", str "Adjacent element differs",
          str "Exact match on exposure"]) := by
    rw [hq]
    norm_num [SAMPLE_DETAILS, bestLoop, s1, s2, s3, s4, s5, W_exposure, min_def, max_def]
  have hout := match_over_eval SAMPLE_DETAILS _ hloop
  refine ⟨?_, ?_, ?_⟩
  · rw [hq, s1, s3]
  · rw [show match_detail ⟨str "masonry", str "sill", str "external"⟩ =
        match_over SAMPLE_DETAILS ⟨str "masonry", str "sill", str "external"⟩ from rfl, hout]
    rfl
  · rw [show match_detail ⟨str "masonry", str "sill", str "external"⟩ =
        match_over SAMPLE_DETAILS ⟨str "masonry", str "sill", str "external"⟩ from rfl, hout]
    decide

/-- C2 amended: for the query (host="masonry", adjacent="sill",
exposure="external"), D-003 scores 0.2 (host partial credit never happens:
the normalized host "cmu" is compared with D-003's host "curtain wall"),
tied with D-001, D-004 and D-005; match returns the earliest tied record
D-001 with confidence 0.2, which is strictly between 0.0 and 0.85. -/
theorem C2_masonry_query :
    (score_match (input_norm ⟨str "masonry", str "sill", str "external"⟩) D003).1 = 1 / 5 ∧
    (score_match (input_norm ⟨str "masonry", str "sill", str "external"⟩) D001).1 = 1 / 5 ∧
    (score_match (input_norm ⟨str "masonry", str "sill", str "external"⟩) D004).1 = 1 / 5 ∧
    (score_match (input_norm ⟨str "masonry", str "sill", str "external"⟩) D005).1 = 1 / 5 ∧
    (score_match (input_norm ⟨str "masonry", str "sill", str "external"⟩) D002).1 = 0 ∧
    match_detail ⟨str "masonry", str "sill", str "external"⟩ =
      { suggested_detail := str "External Wall–Slab Junction Waterproofing",
        confidence := 1 / 5,
        reason := str "Low confidence: Host differs; Adjacent element differs; Exact match on exposure" } ∧
    0 < (match_detail ⟨str "masonry", str "sill", str "external"⟩).confidence ∧
    (match_detail ⟨str "masonry", str "sill", str "external"⟩).confidence < 0.85 := by
  have hq : input_norm ⟨str "masonry", str "sill", str "external"⟩ =
      ⟨str "cmu", str "sill", str "external"⟩ := by decide
  have s1 : score_match (⟨str "cmu", str "sill", str "external"⟩ : NormQuery) D001 =
      (max 0 (min (0 + 0 + W_exposure * 1) 1),
        [str "Host differs", str "Adjacent element differs",
          str "Exact match on exposure"]) := rfl
  have s2 : score_match (⟨str "cmu", str "sill", str "external"⟩ : NormQuery) D002 =
      (max 0 (min (0 + 0 + 0) 1),
        [str "Host differs", str "Adjacent element differs",
          str "Exposure differs (input=external, detail=internal)"]) := rfl
  have s3 : score_match (⟨str "cmu", str "sill", str "external"⟩ : NormQuery) D003 =
      (max 0 (min (0 + 0 + W_exposure * 1) 1),
        [str "Host differs", str "Adjacent element differs",
          str "Exact match on exposure"]) := rfl
  have s4 : score_match (⟨str "cmu", str "sill", str "external"⟩ : NormQuery) D004 =
      (max 0 (min (0 + 0 + W_exposure * 1) 1),
        [str "Host differs", str "Adjacent element differs",
          str "Exact match on exposure"]) := rfl
  have s5 : score_match (⟨str "cmu", str "sill", str "external"⟩ : NormQuery) D005 =
      (max 0 (min (0 + 0 + W_exposure * 1) 1),
        [str "Host differs", str "Adjacent element differs",
          str "Exact match on exposure"]) := rfl
  have hloop : bestLoop (input_norm ⟨str "masonry", str "sill", str "external"⟩)
      SAMPLE_DETAILS none (-1) [] =
      (some D001, 1 / 5,
        [str "Host differs", str "Adjacent element differs",
          str "Exact match on exposure"]) := by
    rw [hq]
    norm_num [SAMPLE_DETAILS, bestLoop, s1, s2, s3, s4, s5, W_exposure, min_def, max_def]
  have hout := match_over_eval SAMPLE_DETAILS _ hloop
  have hmd : match_detail ⟨str "masonry", str "sill", str "external"⟩ =
      { suggested_detail := str "External Wall–Slab Junction Waterproofing",
        confidence := 1 / 5,
        reason := str "Low confidence: Host differs; Adjacent element differs; Exact match on exposure" } := by
    rw [show match_detail ⟨str "masonry", str "sill", str "external"⟩ =
        match_over SAMPLE_DETAILS ⟨str "masonry", str "sill", str "external"⟩ from rfl, hout,
      round2_fifth]
    rw [if_neg (by norm_num : ¬ ((1 : ℚ) / 5 ≥ 0.85)),
      if_neg (by norm_num : ¬ ((1 : ℚ) / 5 ≥ 0.5))]
    refine congrArg _ ?_
    decide
  refine ⟨?_, ?_, ?_, ?_, ?_, hmd, ?_, ?_⟩
  · rw [hq, s3]; norm_num [W_exposure]
  · rw [hq, s1]; norm_num [W_exposure]
  · rw [hq, s4]; norm_num [W_exposure]
  · rw [hq, s5]; norm_num [W_exposure]
  · rw [hq, s2]; norm_num
  · rw [hmd]; norm_num
  · rw [hmd]; norm_num

/-- C3: for every query and every non-empty library, match returns the
record at the first index attaining the maximal score: all scores are at
most the winner's, and every earlier record scores strictly less. -/
theorem C3_first_max_selection (p : MatchInput) (lib : List Detail) (hne : lib ≠ []) :
    ∃ (i : ℕ) (hi : i < lib.length),
      (match_over lib p).suggested_detail = (lib.get ⟨i, hi⟩).title ∧
      (∀ (j : ℕ) (hj : j < lib.length),
        (score_match (input_norm p) (lib.get ⟨j, hj⟩)).1 ≤
          (score_match (input_norm p) (lib.get ⟨i, hi⟩)).1) ∧
      (∀ (j : ℕ) (hj : j < lib.length), j < i →
        (score_match (input_norm p) (lib.get ⟨j, hj⟩)).1 <
          (score_match (input_norm p) (lib.get ⟨i, hi⟩)).1) := by
  rcases bestLoop_spec (input_norm p) lib none (-1) [] with
    ⟨hall, _⟩ | ⟨i, hi, heq, _, hmax, hfirst⟩
  · rcases List.exists_cons_of_ne_nil hne with ⟨d0, t0, rfl⟩
    have h0 := hall d0 (List.mem_cons_self d0 t0)
    have h1 := score_nonneg (input_norm p) d0
    linarith
  · refine ⟨i, hi, ?_, hmax, hfirst⟩
    rw [match_over_eval lib p heq]

/-- C3 witness: instance of the selection property at the shipped library
and the query (host="masonry", adjacent="sill", exposure="external"). -/
theorem C3_first_max_selection_witness :
    ∃ (i : ℕ) (hi : i < SAMPLE_DETAILS.length),
      (match_over SAMPLE_DETAILS ⟨str "masonry", str "sill", str "external"⟩).suggested_detail =
        (SAMPLE_DETAILS.get ⟨i, hi⟩).title ∧
      (∀ (j : ℕ) (hj : j < SAMPLE_DETAILS.length),
        (score_match (input_norm ⟨str "masonry", str "sill", str "external"⟩)
            (SAMPLE_DETAILS.get ⟨j, hj⟩)).1 ≤
          (score_match (input_norm ⟨str "masonry", str "sill", str "external"⟩)
            (SAMPLE_DETAILS.get ⟨i, hi⟩)).1) ∧
      (∀ (j : ℕ) (hj : j < SAMPLE_DETAILS.length), j < i →
        (score_match (input_norm ⟨str "masonry", str "sill", str "external"⟩)
            (SAMPLE_DETAILS.get ⟨j, hj⟩)).1 <
          (score_match (input_norm ⟨str "masonry", str "sill", str "external"⟩)
            (SAMPLE_DETAILS.get ⟨i, hi⟩)).1) :=
  C3_first_max_selection ⟨str "masonry", str "sill", str "external"⟩ SAMPLE_DETAILS
    (by decide)

/-- C4: for every query and non-empty library, the reason returned by match
is the winner's three per-field reasons (host, adjacent, exposure order)
joined with "; ", prefixed by the confidence bucket of the winning score:
"High confidence: " at 0.85 and above, "Medium confidence: " at 0.5 and
above, "Low confidence: " below. -/
theorem C4_reason_format (p : MatchInput) (lib : List Detail) (hne : lib ≠ []) :
    ∃ (i : ℕ) (hi : i < lib.length),
      (match_over lib p).suggested_detail = (lib.get ⟨i, hi⟩).title ∧
      (∀ (j : ℕ) (hj : j < lib.length),
        (score_match (input_norm p) (lib.get ⟨j, hj⟩)).1 ≤
          (score_match (input_norm p) (lib.get ⟨i, hi⟩)).1) ∧
      (∀ (j : ℕ) (hj : j < lib.length), j < i →
        (score_match (input_norm p) (lib.get ⟨j, hj⟩)).1 <
          (score_match (input_norm p) (lib.get ⟨i, hi⟩)).1) ∧
      (match_over lib p).reason =
        (if (score_match (input_norm p) (lib.get ⟨i, hi⟩)).1 ≥ 0.85 then
          str "High confidence: "
        else if (score_match (input_norm p) (lib.get ⟨i, hi⟩)).1 ≥ 0.5 then
          str "Medium confidence: "
        else str "Low confidence: ") ++
        joinSemi [(hostScore (input_norm p) (lib.get ⟨i, hi⟩)).2,
          (adjacentScore (input_norm p) (lib.get ⟨i, hi⟩)).2,
          (exposureScore (input_norm p) (lib.get ⟨i, hi⟩)).2] := by
  rcases bestLoop_spec (input_norm p) lib none (-1) [] with
    ⟨hall, _⟩ | ⟨i, hi, heq, _, hmax, hfirst⟩
  · rcases List.exists_cons_of_ne_nil hne with ⟨d0, t0, rfl⟩
    have h0 := hall d0 (List.mem_cons_self d0 t0)
    have h1 := score_nonneg (input_norm p) d0
    linarith
  · refine ⟨i, hi, ?_, hmax, hfirst, ?_⟩
    · rw [match_over_eval lib p heq]
    · rw [match_over_eval lib p heq]
      simp only [round2_score, score_match_snd]
      split_ifs <;> rfl

/-- C4 witness: instance of the reason format at the shipped library and
the query (host="masonry", adjacent="sill", exposure="external"). -/
theorem C4_reason_format_witness :
    ∃ (i : ℕ) (hi : i < SAMPLE_DETAILS.length),
      (match_over SAMPLE_DETAILS ⟨str "masonry", str "sill", str "external"⟩).suggested_detail =
        (SAMPLE_DETAILS.get ⟨i, hi⟩).title ∧
      (∀ (j : ℕ) (hj : j < SAMPLE_DETAILS.length),
        (score_match (input_norm ⟨str "masonry", str "sill", str "external"⟩)
            (SAMPLE_DETAILS.get ⟨j, hj⟩)).1 ≤
          (score_match (input_norm ⟨str "masonry", str "sill", str "external"⟩)
            (SAMPLE_DETAILS.get ⟨i, hi⟩)).1) ∧
      (∀ (j : ℕ) (hj : j < SAMPLE_DETAILS.length), j < i →
        (score_match (input_norm ⟨str "masonry", str "sill", str "external"⟩)
            (SAMPLE_DETAILS.get ⟨j, hj⟩)).1 <
          (score_match (input_norm ⟨str "masonry", str "sill", str "external"⟩)
            (SAMPLE_DETAILS.get ⟨i, hi⟩)).1) ∧
      (match_over SAMPLE_DETAILS ⟨str "masonry", str "sill", str "external"⟩).reason =
        (if (score_match (input_norm ⟨str "masonry", str "sill", str "external"⟩)
            (SAMPLE_DETAILS.get ⟨i, hi⟩)).1 ≥ 0.85 then
          str "High confidence: "
        else if (score_match (input_norm ⟨str "masonry", str "sill", str "external"⟩)
            (SAMPLE_DETAILS.get ⟨i, hi⟩)).1 ≥ 0.5 then
          str "Medium confidence: "
        else str "Low confidence: ") ++
        joinSemi [(hostScore (input_norm ⟨str "masonry", str "sill", str "external"⟩)
            (SAMPLE_DETAILS.get ⟨i, hi⟩)).2,
          (adjacentScore (input_norm ⟨str "masonry", str "sill", str "external"⟩)
            (SAMPLE_DETAILS.get ⟨i, hi⟩)).2,
          (exposureScore (input_norm ⟨str "masonry", str "sill", str "external"⟩)
            (SAMPLE_DETAILS.get ⟨i, hi⟩)).2] :=
  C4_reason_format ⟨str "masonry", str "sill", str "external"⟩ SAMPLE_DETAILS (by decide)

/-- C7: the all-empty query against any non-empty library returns some
record of the library with confidence 0.0, and the winning record's reasons
are exactly ["Host differs", "Adjacent element differs", "Exposure unknown"]. -/
theorem C7_all_empty_query (lib : List Detail) (hne : lib ≠ []) :
    (match_over lib ⟨[], [], []⟩).confidence = 0 ∧
    ∃ (i : ℕ) (hi : i < lib.length),
      (match_over lib ⟨[], [], []⟩).suggested_detail = (lib.get ⟨i, hi⟩).title ∧
      (score_match (input_norm ⟨[], [], []⟩) (lib.get ⟨i, hi⟩)).2 =
        [str "Host differs", str "Adjacent element differs", str "Exposure unknown"] := by
  have hq : input_norm ⟨[], [], []⟩ = ⟨[], [], []⟩ := by decide
  have hsc : ∀ d : Detail, score_match (⟨[], [], []⟩ : NormQuery) d =
      (0, [str "Host differs", str "Adjacent element differs", str "Exposure unknown"]) := by
    intro d
    have hh : hostScore ⟨[], [], []⟩ d = (0, str "Host differs") := by
      simp only [hostScore]
      rw [if_neg (fun h => h.2 rfl), if_neg (fun h => h.1 rfl)]
    have ha : adjacentScore ⟨[], [], []⟩ d = (0, str "Adjacent element differs") := by
      simp only [adjacentScore]
      rw [if_neg (fun h => h.2 rfl), if_neg (fun h => h.1 rfl)]
    have he : exposureScore ⟨[], [], []⟩ d = (0, str "Exposure unknown") := by
      simp only [exposureScore]
      rw [if_neg (fun h => h.2 rfl), if_neg (fun h => h.1 rfl)]
    refine Prod.ext ?_ ?_
    · rw [score_match_fst, hh, ha, he]
      norm_num
    · rw [score_match_snd, hh, ha, he]
  rcases bestLoop_spec (input_norm ⟨[], [], []⟩) lib none (-1) [] with
    ⟨hall, _⟩ | ⟨i, hi, heq, _, _, _⟩
  · rcases List.exists_cons_of_ne_nil hne with ⟨d0, t0, rfl⟩
    have h0 := hall d0 (List.mem_cons_self d0 t0)
    rw [hq, hsc d0] at h0
    norm_num at h0
  · have hsi : score_match (input_norm ⟨[], [], []⟩) (lib.get ⟨i, hi⟩) =
        (0, [str "Host differs", str "Adjacent element differs", str "Exposure unknown"]) := by
      rw [hq]
      exact hsc _
    rw [hsi] at heq
    dsimp only at heq
    have hout := match_over_eval lib _ heq
    rw [hout, round2_zero]
    exact ⟨rfl, i, hi, rfl, hsi ▸ rfl⟩

/-- C7 witness: the all-empty query against the shipped library. -/
theorem C7_all_empty_query_witness :
    (match_over SAMPLE_DETAILS ⟨[], [], []⟩).confidence = 0 ∧
    ∃ (i : ℕ) (hi : i < SAMPLE_DETAILS.length),
      (match_over SAMPLE_DETAILS ⟨[], [], []⟩).suggested_detail =
        (SAMPLE_DETAILS.get ⟨i, hi⟩).title ∧
      (score_match (input_norm ⟨[], [], []⟩) (SAMPLE_DETAILS.get ⟨i, hi⟩)).2 =
        [str "Host differs", str "Adjacent element differs", str "Exposure unknown"] :=
  C7_all_empty_query SAMPLE_DETAILS (by decide)

/-- C8: with an empty library, match returns the sentinel result
"No match found" with confidence 0.0 and an explanatory reason, for every
input, instead of throwing or picking an arbitrary record. -/
theorem C8_empty_library (p : MatchInput) :
    match_over [] p =
      { suggested_detail := str "No match found", confidence := 0,
        reason := str "No samples available" } := rfl

/-- C9: for every normalized query and every record, the score is the
clamped sum of the three weighted contributions and lies in [0.0, 1.0]. -/
theorem C9_score_bounds (q : NormQuery) (d : Detail) :
    0 ≤ (score_match q d).1 ∧ (score_match q d).1 ≤ 1 ∧
    (score_match q d).1 =
      max 0 (min ((hostScore q d).1 + (adjacentScore q d).1 + (exposureScore q d).1) 1) :=
  ⟨score_nonneg q d, score_le_one q d, score_match_fst q d⟩

/-- C10: over the shipped five-record library the "No match found" branch
is unreachable: for every input, match returns the title of one of the five
records, never the sentinel, and the winning reasons list has exactly three
entries. -/
theorem C10_no_match_unreachable (p : MatchInput) :
    ∃ (i : ℕ) (hi : i < SAMPLE_DETAILS.length),
      (match_detail p).suggested_detail = (SAMPLE_DETAILS.get ⟨i, hi⟩).title ∧
      (match_detail p).suggested_detail ≠ str "No match found" ∧
      ((score_match (input_norm p) (SAMPLE_DETAILS.get ⟨i, hi⟩)).2).length = 3 := by
  have htitle : ∀ d ∈ SAMPLE_DETAILS, d.title ≠ str "No match found" := by decide
  rcases bestLoop_spec (input_norm p) SAMPLE_DETAILS none (-1) [] with
    ⟨hall, _⟩ | ⟨i, hi, heq, _, _, _⟩
  · have h0 := hall D001 (by decide)
    have h1 := score_nonneg (input_norm p) D001
    linarith
  · have hout := match_over_eval SAMPLE_DETAILS p heq
    refine ⟨i, hi, ?_, ?_, ?_⟩
    · rw [show match_detail p = match_over SAMPLE_DETAILS p from rfl, hout]
    · rw [show match_detail p = match_over SAMPLE_DETAILS p from rfl, hout]
      exact htitle _ (List.get_mem _ _ _)
    · rw [score_match_snd]
      rfl

/-- C5: normalize is total and equals the staged pipeline of the spec:
trim, then lowercase, then each synonym rule in table order replacing all
substring occurrences of its pattern — the per-rule occurrence guard in the
code is semantically redundant. -/
theorem C5_normalize_pipeline (s : List Char) : normalize s = normalizeSpec s :=
  applySynonyms_eq_spec NORMALIZATION_SYNONYMS (toLowerStr (pyStrip s))

/-- C6 counterexample: the shipped table satisfies the spec's hypothesis
(no replacement string contains any rule pattern), yet normalize is not
idempotent: "concrete concrete slab" normalizes to "concrete slab", whose
second normalization is "slab". -/
theorem C6_idempotence_counterexample :
    (∀ pr ∈ NORMALIZATION_SYNONYMS, ∀ pr2 ∈ NORMALIZATION_SYNONYMS,
      containsSub pr2.1 pr.2 = false) ∧
    normalize (str "concrete concrete slab") = str "concrete slab" ∧
    normalize (normalize (str "concrete concrete slab")) = str "slab" ∧
    normalize (normalize (str "concrete concrete slab")) ≠
      normalize (str "concrete concrete slab") := by
  refine ⟨by decide, by decide, by decide, by decide⟩

/-- C6 amended: normalize is idempotent on exactly the strings whose
normalization contains no synonym pattern any more; a second pass only
reruns the synonym stage (trim and lowercase fix the output), so when no
pattern occurs in normalize s, normalize (normalize s) = normalize s. -/
theorem C6_normalize_idempotent_of_stable (s : List Char)
    (h : ∀ pr ∈ NORMALIZATION_SYNONYMS, containsSub pr.1 (normalize s) = false) :
    normalize (normalize s) = normalize s := by
  rcases normalize_canon s with ⟨h1, h2, h3⟩
  rw [show normalize (normalize s) =
      applySynonyms NORMALIZATION_SYNONYMS (toLowerStr (pyStrip (normalize s))) from rfl]
  rw [pyStrip_eq_self h2 h3, h1]
  exact applySynonyms_no_op _ _ h

/-- C6 witness: "hello world" normalizes to itself, contains no synonym
pattern, and the amended theorem applies to it. -/
theorem C6_normalize_idempotent_of_stable_witness :
    (∀ pr ∈ NORMALIZATION_SYNONYMS,
      containsSub pr.1 (normalize (str "hello world")) = false) ∧
    normalize (normalize (str "hello world")) = normalize (str "hello world") :=
  ⟨by decide, C6_normalize_idempotent_of_stable (str "hello world") (by decide)⟩

end ContextMatcher
